import Mathlib

/-!
Shallow embedding of the statistics aggregation and display logic of the
gitreceipt application (a browser app that fetches a GitHub user profile and
repository list and renders derived statistics as a receipt).

The embedding follows the richest client variant of the source
(`getGitHubStats` and the `Home` component): repository and user records,
the sum aggregations, the weekday-of-last-push histogram and most-active-day
selection, the language ranking, the 30-day recency count, the contribution
score shown on the receipt, the decorative random fields, the error funnel of
`handleSubmit`, and the download-filename construction of `handleDownload`.

JavaScript `Date` values are modelled as integer epoch milliseconds; `getDay`
is the UTC weekday of such an instant (floor division by the milliseconds per
day, offset by 4 because the epoch fell on a Thursday, reduced mod 7).
-/

namespace GitReceipt

/-- Mirror of the `GitHubRepo` interface.  `pushed_at` and `created_at` are
epoch milliseconds (the numeric value of the parsed `Date`). -/
structure GitHubRepo where
  name : String
  stargazers_count : Nat
  forks_count : Nat
  size : Nat
  language : Option String
  pushed_at : Int
  created_at : Int
  deriving Repr, DecidableEq

/-- Mirror of the `GitHubUser` interface. -/
structure GitHubUser where
  login : String
  name : Option String
  followers : Nat
  following : Nat
  public_repos : Nat
  created_at : Int
  location : Option String
  public_gists : Nat
  deriving Repr, DecidableEq

/-- `reposData.reduce((acc, repo) => acc + repo.stargazers_count, 0)`. -/
def totalStars (rs : List GitHubRepo) : Nat :=
  rs.foldl (fun acc r => acc + r.stargazers_count) 0

/-- `reposData.reduce((acc, repo) => acc + repo.forks_count, 0)`. -/
def totalForks (rs : List GitHubRepo) : Nat :=
  rs.foldl (fun acc r => acc + r.forks_count) 0

/-- `reposData.reduce((acc, repo) => acc + repo.size, 0)`. -/
def totalSize (rs : List GitHubRepo) : Nat :=
  rs.foldl (fun acc r => acc + r.size) 0

/-- `reposData.length`. -/
def totalRepos (rs : List GitHubRepo) : Nat := rs.length

/-- `Math.round(totalSize / 1024)` on a non-negative integer: round half up. -/
def totalSizeMB (rs : List GitHubRepo) : Nat := (totalSize rs + 512) / 1024

/-- The contribution score rendered on the receipt:
`data.stats.totalStars * 2 + data.userData.followers * 3`. -/
def contributionScore (user : GitHubUser) (rs : List GitHubRepo) : Nat :=
  totalStars rs * 2 + user.followers * 3

/-- `reposData.map(repo => repo.language).filter(lang => lang !== null)`. -/
def languages (rs : List GitHubRepo) : List String :=
  (rs.map (fun r => r.language)).filterMap id

/-- One step of the `langCount` reduce: `acc[lang] = (acc[lang] || 0) + 1`
on a JavaScript object whose string keys enumerate in insertion order,
modelled as an association list. -/
def bumpLang (acc : List (String × Nat)) (lang : String) : List (String × Nat) :=
  if acc.any (fun p => p.1 == lang) then
    acc.map (fun p => if p.1 == lang then (p.1, p.2 + 1) else p)
  else acc ++ [(lang, 1)]

/-- `languages.reduce((acc, lang) => ..., {})` followed by `Object.entries`:
the language/occurrence pairs in first-encounter key order. -/
def langCount (langs : List String) : List (String × Nat) :=
  langs.foldl bumpLang []

/-- The JavaScript sort comparator `([,a],[,b]) => b - a`: descending by
count; `Array.prototype.sort` is stable. -/
def byCountDesc (p q : String × Nat) : Bool := q.2 ≤ p.2

/-- `Object.entries(langCount).sort(([,a],[,b]) => b - a)`. -/
def sortedLangEntries (rs : List GitHubRepo) : List (String × Nat) :=
  (langCount (languages rs)).mergeSort byCountDesc

/-- `.slice(0, 3).map(([lang]) => lang)`. -/
def topLanguagesList (rs : List GitHubRepo) : List String :=
  ((sortedLangEntries rs).take 3).map (fun p => p.1)

/-- `.join` with a comma and space: the display string of the top languages. -/
def topLanguages (rs : List GitHubRepo) : String :=
  String.intercalate ", " (topLanguagesList rs)

/-- The UI fallback for the rendered top-languages text: the empty string is
falsy, so it is replaced by the literal NONE. -/
def displayTopLanguages (s : String) : String :=
  if s = "" then "NONE" else s

/-- Milliseconds per day, as used by `Date` arithmetic. -/
def msPerDay : Int := 86400000

/-- `new Date(t).getDay()` for an epoch-millisecond instant `t` (UTC weekday):
days elapsed since the epoch, offset by 4 because 1970-01-01 was a Thursday,
reduced mod 7.  Always in `0..6` (0 = Sunday). -/
def jsGetDay (t : Int) : Nat :=
  (((t.fdiv msPerDay) + 4).emod 7).toNat

/-- `reposData.map(repo => new Date(repo.pushed_at).getDay())`. -/
def pushDays (rs : List GitHubRepo) : List Nat :=
  rs.map (fun r => jsGetDay r.pushed_at)

/-- One step of `pushDays.forEach(day => dayCount[day]++)`. -/
def bumpDay (acc : List Nat) (d : Nat) : List Nat :=
  acc.set d (acc.getD d 0 + 1)

/-- `const dayCount = new Array(7).fill(0); pushDays.forEach(day => dayCount[day]++)`. -/
def dayCount (rs : List GitHubRepo) : List Nat :=
  (pushDays rs).foldl bumpDay (List.replicate 7 0)

/-- `Math.max(...dayCount)`. -/
def maxCount (rs : List GitHubRepo) : Nat :=
  (dayCount rs).foldl max 0

/-- `const days` = Sunday .. Saturday. -/
def days : List String :=
  ["Sunday", "Monday", "Tuesday", "Wednesday", "Thursday", "Friday", "Saturday"]

/-- `days[dayCount.indexOf(Math.max(...dayCount))]`. -/
def mostActiveDay (rs : List GitHubRepo) : String :=
  days.getD ((dayCount rs).indexOf (maxCount rs)) ""

/-- `thirtyDaysAgo = new Date(); thirtyDaysAgo.setDate(getDate() - 30)`:
the instant thirty days before `now` (a fixed 30-day interval in the
epoch-millisecond model). -/
def thirtyDaysAgo (now : Int) : Int := now - 30 * msPerDay

/-- `reposData.filter(repo => new Date(repo.pushed_at) > thirtyDaysAgo).length`. -/
def recentActivity (now : Int) (rs : List GitHubRepo) : Nat :=
  (rs.filter (fun r => thirtyDaysAgo now < r.pushed_at)).length

/-- `const FORTUNE_MESSAGES = [...]`. -/
def FORTUNE_MESSAGES : List String :=
  ["Your next commit will be bug-free! 🪲",
   "A great PR is in your future! 🔮",
   "Today is a good day to refactor! ♻️",
   "Your code will make someone smile! 😊",
   "A mysterious bug will soon reveal itself! 🕵️"]

/-- `const FAMOUS_DEVS = [...]`. -/
def FAMOUS_DEVS : List String :=
  ["Linus Torvalds",
   "Ada Lovelace",
   "Grace Hopper",
   "Alan Turing",
   "Margaret Hamilton"]

/-- `FORTUNE_MESSAGES[Math.floor(Math.random() * FORTUNE_MESSAGES.length)]`:
the draw `Math.floor(Math.random() * len)` is an integer in `0..len-1`,
modelled as `Fin len`. -/
def randomFortune (i : Fin FORTUNE_MESSAGES.length) : String :=
  FORTUNE_MESSAGES.get i

/-- `FAMOUS_DEVS[Math.floor(Math.random() * FAMOUS_DEVS.length)]`. -/
def cashier (i : Fin FAMOUS_DEVS.length) : String :=
  FAMOUS_DEVS.get i

/-- The base-36 digit characters produced by `Number.prototype.toString(36)`:
digits then lowercase letters. -/
def jsBase36Digit (d : Fin 36) : Char :=
  if d.val < 10 then Char.ofNat (48 + d.val) else Char.ofNat (87 + d.val)

/-- `Math.random().toString(36).substring(2, 8).toUpperCase()`.
`x.toString(36)` for a draw `x` in `[0,1)` prints `0.` followed by the
fractional base-36 digits of `x` with trailing zeros trimmed (no digits at
all when `x = 0`, which prints as the bare string `0`); `substring(2, 8)`
keeps the first at-most-six of those digit characters.  The digit list `ds`
is that fractional expansion. -/
def couponCode (ds : List (Fin 36)) : String :=
  String.mk (((ds.take 6).map jsBase36Digit).map Char.toUpper)

/-- The `stats` object returned by `getGitHubStats`. -/
structure DerivedStats where
  totalRepos : Nat
  totalStars : Nat
  totalForks : Nat
  topLanguages : String
  totalSizeMB : Nat
  recentActivity : Nat
  mostActiveDay : String
  randomFortune : String
  cashier : String
  couponCode : String
  deriving Repr, DecidableEq

/-- The aggregation step of `getGitHubStats`, applied to the parsed
repository list; `now` is the wall clock at call time and `fi`, `di`, `ds`
the three random draws for the decorative fields. -/
def computeStats (now : Int) (fi : Fin FORTUNE_MESSAGES.length)
    (di : Fin FAMOUS_DEVS.length) (ds : List (Fin 36))
    (rs : List GitHubRepo) : DerivedStats :=
  { totalRepos := totalRepos rs
    totalStars := totalStars rs
    totalForks := totalForks rs
    topLanguages := topLanguages rs
    totalSizeMB := totalSizeMB rs
    recentActivity := recentActivity now rs
    mostActiveDay := mostActiveDay rs
    randomFortune := randomFortune fi
    cashier := cashier di
    couponCode := couponCode ds }

/-- An HTTP response as `getGitHubStats` consumes it: the `ok` flag and the
result of `json()` coerced to the expected shape (`none` when the body does
not have that shape, in which case the later field accesses or `reduce`
throw). -/
structure JsonResponse (α : Type) where
  ok : Bool
  json : Option α
  deriving Repr

/-- The fetch/validation prefix of `getGitHubStats` (variant with the
`handleDownload` and `handleSubmit` handlers): `Promise.all` of the two
fetches rejects when either rejects; then `if (!userResponse.ok) throw new
Error`; then the two bodies are parsed, and a repository
body that is not an array makes `reduce` throw.  The `Except Unit` input
models a rejected fetch promise. -/
def getGitHubStatsResult
    (userFetch : Except Unit (JsonResponse GitHubUser))
    (reposFetch : Except Unit (JsonResponse (List GitHubRepo))) :
    Except String (GitHubUser × List GitHubRepo) :=
  match userFetch, reposFetch with
  | .error _, _ => .error "fetch rejected"
  | .ok _, .error _ => .error "fetch rejected"
  | .ok ur, .ok rr =>
    if ur.ok = false then .error "User not found"
    else
      match ur.json with
      | none => .error "malformed user response"
      | some u =>
        match rr.json with
        | none => .error "reposData.reduce is not a function"
        | some repos => .ok (u, repos)

/-- The user-response side of a failed lookup: the fetch promise rejected,
or the response was not ok, or its body was not a user object. -/
def userFetchFailed (u : Except Unit (JsonResponse GitHubUser)) : Prop :=
  match u with
  | .error _ => True
  | .ok ur => ur.ok = false ∨ ur.json = none

/-- The repository-response side of a failed lookup: the fetch promise
rejected, or the body was not a repository array (the code never checks
the `ok` flag of this response; a failed API call returns a JSON error object,
not an array). -/
def reposFetchFailed (r : Except Unit (JsonResponse (List GitHubRepo))) : Prop :=
  match r with
  | .error _ => True
  | .ok rr => rr.json = none

/-- The state update performed by `handleSubmit` on the `(data, error)` view
state: on success `setData` runs after the error text is cleared; on any thrown
error only `setError` runs, leaving the prior data. -/
def handleSubmitUpdate (prior : Option (GitHubUser × List GitHubRepo))
    (userFetch : Except Unit (JsonResponse GitHubUser))
    (reposFetch : Except Unit (JsonResponse (List GitHubRepo))) :
    Option (GitHubUser × List GitHubRepo) × String :=
  match getGitHubStatsResult userFetch reposFetch with
  | .ok res => (some res, "")
  | .error _ => (prior, "User not found")

/-- `link.download` in `handleDownload`:
the handle interpolated between the github-receipt- prefix and the
.png suffix, where a missing `data` (or login) and the falsy empty string
both fall back to the literal user. -/
def downloadFilename (login : Option String) : String :=
  "github-receipt-" ++
    (match login with
     | some l => if l = "" then "user" else l
     | none => "user") ++ ".png"

/-- Sample repositories used to instantiate the theorems below. -/
def demoRepoTs : GitHubRepo :=
  { name := "alpha", stargazers_count := 5, forks_count := 1, size := 1000,
    language := some "TypeScript", pushed_at := 1704067200000, created_at := 0 }

def demoRepoPy : GitHubRepo :=
  { name := "beta", stargazers_count := 3, forks_count := 0, size := 200,
    language := some "Python", pushed_at := 1704153600000, created_at := 0 }

def demoRepoTs2 : GitHubRepo :=
  { name := "gamma", stargazers_count := 2, forks_count := 4, size := 50,
    language := some "TypeScript", pushed_at := 0, created_at := 0 }

def demoRepoNoLang : GitHubRepo :=
  { name := "delta", stargazers_count := 0, forks_count := 0, size := 0,
    language := none, pushed_at := 0, created_at := 0 }

/-! ### Helper lemmas -/

theorem foldl_add_eq_sum (f : GitHubRepo → Nat) (rs : List GitHubRepo) :
    ∀ n : Nat, rs.foldl (fun acc r => acc + f r) n = n + (rs.map f).sum := by
  induction rs with
  | nil => simp
  | cons r rs ih =>
    intro n
    simp only [List.foldl_cons, List.map_cons, List.sum_cons, ih]
    omega

theorem foldl_max_le_self (l : List Nat) : ∀ a : Nat, a ≤ l.foldl max a := by
  induction l with
  | nil => simp
  | cons x l ih =>
    intro a
    calc a ≤ max a x := Nat.le_max_left a x
    _ ≤ l.foldl max (max a x) := ih (max a x)

theorem mem_le_foldl_max (l : List Nat) : ∀ a : Nat, ∀ x ∈ l, x ≤ l.foldl max a := by
  induction l with
  | nil => simp
  | cons y l ih =>
    intro a x hx
    rcases List.mem_cons.mp hx with h | h
    · subst h
      calc x ≤ max a x := Nat.le_max_right a x
      _ ≤ l.foldl max (max a x) := foldl_max_le_self l (max a x)
    · exact ih (max a y) x h

theorem foldl_max_mem (l : List Nat) : ∀ a : Nat, l.foldl max a = a ∨ l.foldl max a ∈ l := by
  induction l with
  | nil => intro a; left; rfl
  | cons x l ih =>
    intro a
    rcases ih (max a x) with h | h
    · rcases max_choice a x with hm | hm
      · left; simp only [List.foldl_cons]; rw [h, hm]
      · right; simp only [List.foldl_cons]; rw [h, hm]; exact List.mem_cons_self x l
    · right; exact List.mem_cons_of_mem x h

/-! ### Theorems for the claims -/

/-- Claim C2: the displayed contribution score is exactly
`2 * totalStars + 3 * followers`, for every profile and repository list. -/
theorem contributionScore_formula (user : GitHubUser) (rs : List GitHubRepo) :
    contributionScore user rs = 2 * totalStars rs + 3 * user.followers := by
  unfold contributionScore
  ring

/-- Claim C3: the three aggregated totals are the arithmetic sums of the
per-repository fields, they are invariant under permutation of the
repository sequence, and the empty sequence yields zero for each. -/
theorem totals_are_sums :
    (∀ rs : List GitHubRepo,
        totalStars rs = (rs.map (fun r => r.stargazers_count)).sum ∧
        totalForks rs = (rs.map (fun r => r.forks_count)).sum ∧
        totalSize rs = (rs.map (fun r => r.size)).sum) ∧
    (∀ rs₁ rs₂ : List GitHubRepo, rs₁.Perm rs₂ →
        totalStars rs₁ = totalStars rs₂ ∧ totalForks rs₁ = totalForks rs₂ ∧
        totalSize rs₁ = totalSize rs₂) ∧
    (totalStars [] = 0 ∧ totalForks [] = 0 ∧ totalSize [] = 0) := by
  have hsum : ∀ (f : GitHubRepo → Nat) (rs : List GitHubRepo),
      rs.foldl (fun acc r => acc + f r) 0 = (rs.map f).sum := by
    intro f rs
    simpa using foldl_add_eq_sum f rs 0
  refine ⟨?_, ?_, by decide⟩
  · intro rs
    exact ⟨hsum _ rs, hsum _ rs, hsum _ rs⟩
  · intro rs₁ rs₂ hperm
    refine ⟨?_, ?_, ?_⟩ <;>
      simp only [totalStars, totalForks, totalSize, hsum] <;>
      exact ((hperm.map _).sum_eq)

/-- Witness for C3 at a concrete permutation. -/
theorem totals_are_sums_witness :
    totalStars [demoRepoTs, demoRepoPy] = totalStars [demoRepoPy, demoRepoTs] :=
  (totals_are_sums.2.1 [demoRepoTs, demoRepoPy] [demoRepoPy, demoRepoTs]
    (List.Perm.swap demoRepoPy demoRepoTs [])).1

/-- Claim C7: the recency count is the number of repositories whose
last-push instant lies strictly after the instant thirty days before `now`,
and it is permutation invariant. -/
theorem recentActivity_counts_window (now : Int) (rs : List GitHubRepo) :
    recentActivity now rs =
      rs.countP (fun r => decide (now - 30 * msPerDay < r.pushed_at)) ∧
    (∀ rs₂ : List GitHubRepo, rs.Perm rs₂ →
      recentActivity now rs = recentActivity now rs₂) := by
  constructor
  · simp [recentActivity, thirtyDaysAgo, List.countP_eq_length_filter]
  · intro rs₂ hperm
    simp only [recentActivity, ← List.countP_eq_length_filter]
    exact hperm.countP_eq _

/-- Witness for C7 at a concrete input. -/
theorem recentActivity_counts_window_witness :
    recentActivity 1704067200000 [demoRepoTs, demoRepoPy] =
      recentActivity 1704067200000 [demoRepoPy, demoRepoTs] :=
  (recentActivity_counts_window 1704067200000 [demoRepoTs, demoRepoPy]).2
    [demoRepoPy, demoRepoTs] (List.Perm.swap demoRepoPy demoRepoTs [])

/-- Claim C9: the receipt download is named after the looked-up handle, with
the literal fallback only when no handle is present. -/
theorem downloadFilename_uses_handle (L : String) (h : L ≠ "") :
    downloadFilename (some L) = "github-receipt-" ++ L ++ ".png" ∧
    downloadFilename none = "github-receipt-user.png" := by
  constructor
  · simp [downloadFilename, h]
  · rfl

/-- Witness for C9 at a concrete handle. -/
theorem downloadFilename_uses_handle_witness :
    downloadFilename (some "kahnwong") = "github-receipt-" ++ "kahnwong" ++ ".png" :=
  (downloadFilename_uses_handle "kahnwong" (by decide)).1

/-- Claim C6: on the empty repository list nothing crashes: all totals are
zero, the weekday histogram is all zeros, its maximum 0 occurs first at
index 0, and the selected most-active day is the defined name Sunday. -/
theorem empty_repos_safe :
    totalRepos [] = 0 ∧ totalStars [] = 0 ∧ totalForks [] = 0 ∧
    totalSize [] = 0 ∧ totalSizeMB [] = 0 ∧
    dayCount [] = List.replicate 7 0 ∧ maxCount [] = 0 ∧
    (dayCount []).indexOf (maxCount []) = 0 ∧
    mostActiveDay [] = "Sunday" ∧ days.getD 0 "" = "Sunday" := by
  decide

/-- Claim C10: when no repository carries a non-null primary language, the
aggregated top-languages string is empty and the UI renders NONE. -/
theorem topLanguages_all_null (rs : List GitHubRepo)
    (h : ∀ r ∈ rs, r.language = none) :
    topLanguages rs = "" ∧ displayTopLanguages (topLanguages rs) = "NONE" := by
  have hlang : languages rs = [] := by
    rw [languages, List.filterMap_eq_nil_iff]
    intro a ha
    rcases List.mem_map.mp ha with ⟨r, hr, rfl⟩
    exact h r hr
  have htop : topLanguages rs = "" := by
    simp [topLanguages, topLanguagesList, sortedLangEntries, hlang, langCount]
    rfl
  exact ⟨htop, by simp [displayTopLanguages, htop]⟩

/-- Witness for C10 on a concrete language-free repository list. -/
theorem topLanguages_all_null_witness :
    topLanguages [demoRepoNoLang] = "" ∧
    displayTopLanguages (topLanguages [demoRepoNoLang]) = "NONE" :=
  topLanguages_all_null [demoRepoNoLang] (by decide)

/-- Counterexample to claim C8 as stated: when the coupon draw is exactly 0
(a value `Math.random()` can return), `(0).toString(36)` is the bare string
`0`, `substring(2, 8)` of it is empty, and the coupon code is the empty
string, not a non-empty one. -/
theorem couponCode_zero_draw_empty : couponCode [] = "" := rfl

/-- Claim C8 (amended): the fortune is one of the fixed fortune messages and
non-empty, the cashier is one of the fixed famous-developer names and
non-empty, and the coupon code is an uppercase-alphanumeric string of at
most six characters that is non-empty whenever the draw is non-zero. -/
theorem decorative_fields_spec (fi : Fin FORTUNE_MESSAGES.length)
    (di : Fin FAMOUS_DEVS.length) (ds : List (Fin 36)) :
    randomFortune fi ∈ FORTUNE_MESSAGES ∧ randomFortune fi ≠ "" ∧
    cashier di ∈ FAMOUS_DEVS ∧ cashier di ≠ "" ∧
    (couponCode ds).length ≤ 6 ∧
    (∀ c ∈ (couponCode ds).data, c.isDigit = true ∨ c.isUpper = true) ∧
    (ds ≠ [] → couponCode ds ≠ "") := by
  have hfort : ∀ j : Fin FORTUNE_MESSAGES.length, FORTUNE_MESSAGES.get j ≠ "" := by
    decide
  have hdev : ∀ j : Fin FAMOUS_DEVS.length, FAMOUS_DEVS.get j ≠ "" := by
    decide
  have hchar : ∀ d : Fin 36,
      ((jsBase36Digit d).toUpper.isDigit || (jsBase36Digit d).toUpper.isUpper) = true := by
    decide
  refine ⟨List.get_mem _ _ fi.isLt, hfort fi, List.get_mem _ _ di.isLt, hdev di, ?_, ?_, ?_⟩
  · simp only [couponCode, String.length]
    simp [Nat.min_le_left]
  · intro c hc
    simp only [couponCode] at hc
    rcases List.mem_map.mp hc with ⟨c0, hc0, rfl⟩
    rcases List.mem_map.mp hc0 with ⟨d, _, rfl⟩
    have := hchar d
    rcases Bool.or_eq_true_iff.mp this with h | h
    · exact Or.inl h
    · exact Or.inr h
  · intro hds hcontra
    have hdata := congrArg String.data hcontra
    simp only [couponCode] at hdata
    simp only [List.map_eq_nil_iff, List.take_eq_nil_iff] at hdata
    rcases hdata with h | h
    · exact absurd h (by decide)
    · exact hds h

/-- Witness for C8 (amended): a single-digit draw yields a non-empty coupon. -/
theorem decorative_fields_spec_witness :
    couponCode [(18 : Fin 36)] ≠ "" :=
  (decorative_fields_spec ⟨0, by decide⟩ ⟨0, by decide⟩
    [(18 : Fin 36)]).2.2.2.2.2.2 (by decide)

/-- Claim C5: if either fetch fails (its promise rejects, the user response
is not ok or not a user object, or the repository body is not an array), the
whole lookup produces an error, `handleSubmit` surfaces the single message
User not found, and no new result is produced. -/
theorem lookup_failure_atomic
    (u : Except Unit (JsonResponse GitHubUser))
    (r : Except Unit (JsonResponse (List GitHubRepo)))
    (prior : Option (GitHubUser × List GitHubRepo))
    (h : userFetchFailed u ∨ reposFetchFailed r) :
    (∃ msg, getGitHubStatsResult u r = Except.error msg) ∧
    handleSubmitUpdate prior u r = (prior, "User not found") := by
  have herr : ∃ msg, getGitHubStatsResult u r = Except.error msg := by
    cases u with
    | error e => exact ⟨"fetch rejected", rfl⟩
    | ok ur =>
      cases r with
      | error e => exact ⟨"fetch rejected", rfl⟩
      | ok rr =>
        rcases h with hu | hr
        · rcases hu with hok | hjson
          · exact ⟨"User not found", by simp [getGitHubStatsResult, hok]⟩
          · by_cases hok : ur.ok = false
            · exact ⟨"User not found", by simp [getGitHubStatsResult, hok]⟩
            · exact ⟨"malformed user response", by
                simp [getGitHubStatsResult, hok, hjson]⟩
        · have hj : rr.json = none := hr
          by_cases hok : ur.ok = false
          · exact ⟨"User not found", by simp [getGitHubStatsResult, hok]⟩
          · cases hju : ur.json with
            | none => exact ⟨"malformed user response", by
                simp [getGitHubStatsResult, hok, hju]⟩
            | some uu => exact ⟨"reposData.reduce is not a function", by
                simp [getGitHubStatsResult, hok, hju, hj]⟩
  refine ⟨herr, ?_⟩
  rcases herr with ⟨msg, hmsg⟩
  simp [handleSubmitUpdate, hmsg]

/-- Witness for C5: a rejected user fetch leaves the prior data and shows
User not found. -/
theorem lookup_failure_atomic_witness :
    handleSubmitUpdate none (Except.error ()) (Except.ok ⟨true, some []⟩) =
      (none, "User not found") :=
  (lookup_failure_atomic (Except.error ()) (Except.ok ⟨true, some []⟩) none
    (Or.inl trivial)).2

/-! ### The weekday histogram (claim C1) -/

theorem foldl_bumpDay_length (l : List Nat) :
    ∀ acc : List Nat, (l.foldl bumpDay acc).length = acc.length := by
  induction l with
  | nil => intro acc; rfl
  | cons x l ih =>
    intro acc
    rw [List.foldl_cons, ih]
    simp [bumpDay]

theorem foldl_bumpDay_getD (l : List Nat) :
    ∀ (acc : List Nat) (d : Nat), d < acc.length →
      (l.foldl bumpDay acc).getD d 0 = acc.getD d 0 + l.count d := by
  induction l with
  | nil => intro acc d _; simp
  | cons x l ih =>
    intro acc d hd
    have hlen : (bumpDay acc x).length = acc.length := by simp [bumpDay]
    rw [List.foldl_cons, ih (bumpDay acc x) d (by omega)]
    have hstep : (bumpDay acc x).getD d 0 = acc.getD d 0 + (if x = d then 1 else 0) := by
      by_cases hxd : x = d
      · subst hxd
        simp [bumpDay, List.getD_eq_getElem?_getD, List.getElem?_set_self hd]
      · simp only [bumpDay, List.getD_eq_getElem?_getD, List.getElem?_set_ne hxd]
        simp [hxd]
    rw [hstep, List.count_cons]
    by_cases hxd : x = d
    · have hbe : (x == d) = true := beq_iff_eq.mpr hxd
      simp [hxd, hbe]
      omega
    · have hbe : (x == d) = false := by simp [hxd]
      simp [hxd, hbe]

theorem dayCount_length (rs : List GitHubRepo) : (dayCount rs).length = 7 := by
  rw [dayCount, foldl_bumpDay_length]
  simp

theorem dayCount_histogram (rs : List GitHubRepo) (d : Nat) (hd : d < 7) :
    (dayCount rs).getD d 0 = (pushDays rs).count d := by
  rw [dayCount, foldl_bumpDay_getD (pushDays rs) (List.replicate 7 0) d (by simp [hd])]
  have h0 : (List.replicate 7 0).getD d 0 = 0 := by
    rw [List.getD_eq_getElem?_getD, List.getElem?_replicate]
    simp [hd]
  rw [h0]
  simp

theorem maxCount_mem (rs : List GitHubRepo) : maxCount rs ∈ dayCount rs := by
  have h7 : (dayCount rs).length = 7 := dayCount_length rs
  rcases foldl_max_mem (dayCount rs) 0 with h | h
  · cases hdc : dayCount rs with
    | nil => rw [hdc] at h7; simp at h7
    | cons y ys =>
      have hy : y ≤ maxCount rs := by
        apply mem_le_foldl_max (dayCount rs) 0
        rw [hdc]; exact List.mem_cons_self y ys
      have h0 : maxCount rs = 0 := by rw [maxCount, h]
      have : y = 0 := by omega
      rw [h0, ← this]
      exact List.mem_cons_self y ys
  · exact h

theorem le_maxCount (rs : List GitHubRepo) (x : Nat) (hx : x ∈ dayCount rs) :
    x ≤ maxCount rs :=
  mem_le_foldl_max (dayCount rs) 0 x hx

/-- Claim C1: the most-active weekday is selected from the 7-bucket
histogram of the push weekdays at the first index whose count attains the
maximum: there is an index `i < 7` with `mostActiveDay = days[i]`, the
histogram counts the weekday of each last-push instant, bucket `i` attains
the maximum, every bucket is at most the maximum, and every bucket before
`i` is strictly below it (so on a tie the lowest weekday index wins); the
whole computation is a function of the repository list, hence
deterministic. -/
theorem mostActiveDay_spec (rs : List GitHubRepo) :
    ∃ i : Nat, i < 7 ∧
      mostActiveDay rs = days.getD i "" ∧
      (∀ d : Nat, d < 7 → (dayCount rs).getD d 0 = (pushDays rs).count d) ∧
      (dayCount rs).getD i 0 = maxCount rs ∧
      (∀ j : Nat, j < 7 → (dayCount rs).getD j 0 ≤ maxCount rs) ∧
      (∀ j : Nat, j < i → (dayCount rs).getD j 0 < maxCount rs) := by
  have h7 : (dayCount rs).length = 7 := dayCount_length rs
  have hmem : maxCount rs ∈ dayCount rs := maxCount_mem rs
  have hidx : (dayCount rs).indexOf (maxCount rs) < (dayCount rs).length :=
    List.indexOf_lt_length.mpr hmem
  refine ⟨(dayCount rs).indexOf (maxCount rs), by omega, rfl, dayCount_histogram rs, ?_, ?_, ?_⟩
  · rw [List.getD_eq_getElem?_getD, List.getElem?_eq_getElem hidx]
    simp [List.getElem_indexOf hidx]
  · intro j hj
    have hjlen : j < (dayCount rs).length := by omega
    rw [List.getD_eq_getElem?_getD, List.getElem?_eq_getElem hjlen]
    exact le_maxCount rs _ (List.getElem_mem hjlen)
  · intro j hj
    have hjlen : j < (dayCount rs).length := by omega
    have hne : ¬((dayCount rs)[j] == maxCount rs) = true := by
      have hj2 : j < (dayCount rs).findIdx (fun x => x == maxCount rs) := hj
      have := List.not_of_lt_findIdx hj2
      simpa using this
    have hle : (dayCount rs)[j] ≤ maxCount rs :=
      le_maxCount rs _ (List.getElem_mem hjlen)
    rw [List.getD_eq_getElem?_getD, List.getElem?_eq_getElem hjlen]
    simp only [beq_iff_eq] at hne
    simpa using lt_of_le_of_ne hle hne

/-- Witness for C1 on a concrete repository list. -/
theorem mostActiveDay_spec_witness :
    ∃ i : Nat, i < 7 ∧
      mostActiveDay [demoRepoTs, demoRepoPy, demoRepoTs2] = days.getD i "" ∧
      (∀ d : Nat, d < 7 →
        (dayCount [demoRepoTs, demoRepoPy, demoRepoTs2]).getD d 0 =
          (pushDays [demoRepoTs, demoRepoPy, demoRepoTs2]).count d) ∧
      (dayCount [demoRepoTs, demoRepoPy, demoRepoTs2]).getD i 0 =
        maxCount [demoRepoTs, demoRepoPy, demoRepoTs2] ∧
      (∀ j : Nat, j < 7 →
        (dayCount [demoRepoTs, demoRepoPy, demoRepoTs2]).getD j 0 ≤
          maxCount [demoRepoTs, demoRepoPy, demoRepoTs2]) ∧
      (∀ j : Nat, j < i →
        (dayCount [demoRepoTs, demoRepoPy, demoRepoTs2]).getD j 0 <
          maxCount [demoRepoTs, demoRepoPy, demoRepoTs2]) :=
  mostActiveDay_spec [demoRepoTs, demoRepoPy, demoRepoTs2]

/-! ### The language ranking (claim C4) -/

theorem langCount_append_singleton (xs : List String) (x : String) :
    langCount (xs ++ [x]) = bumpLang (langCount xs) x := by
  simp [langCount, List.foldl_append]

/-- The `langCount` association list records, for every language that occurs
in the input, exactly its number of occurrences, and nothing else. -/
theorem langCount_spec (langs : List String) :
    (∀ e ∈ langCount langs, e.2 = langs.count e.1 ∧ e.1 ∈ langs) ∧
    (∀ l ∈ langs, ∃ e ∈ langCount langs, e.1 = l) := by
  induction langs using List.reverseRecOn with
  | nil => simp [langCount]
  | append_singleton xs x ih =>
    obtain ⟨ihe, ihk⟩ := ih
    rw [langCount_append_singleton]
    unfold bumpLang
    by_cases hx : (langCount xs).any (fun p => p.1 == x) = true
    · rw [if_pos hx]
      constructor
      · intro e he
        rcases List.mem_map.mp he with ⟨e0, he0, hfe⟩
        obtain ⟨hc0, hk0⟩ := ihe e0 he0
        by_cases hkey : (e0.1 == x) = true
        · have hkx : e0.1 = x := by simpa using hkey
          rw [if_pos hkey] at hfe
          subst hfe
          refine ⟨?_, by simp [hkx]⟩
          show e0.2 + 1 = (xs ++ [x]).count e0.1
          rw [List.count_append]
          have h1 : List.count e0.1 [x] = 1 := by simp [hkx]
          omega
        · rw [if_neg hkey] at hfe
          subst hfe
          have hkx : e0.1 ≠ x := by simpa using hkey
          refine ⟨?_, List.mem_append_left _ hk0⟩
          rw [List.count_append]
          have h1 : List.count e0.1 [x] = 0 := by simp [hkx]
          omega
      · intro l hl
        rcases List.mem_append.mp hl with hl | hl
        · rcases ihk l hl with ⟨e0, he0, hke⟩
          refine ⟨if e0.1 == x then (e0.1, e0.2 + 1) else e0,
            List.mem_map_of_mem _ he0, ?_⟩
          by_cases hkey : (e0.1 == x) = true
          · rw [if_pos hkey]; exact hke
          · rw [if_neg hkey]; exact hke
        · have hlx : l = x := by simpa using hl
          subst hlx
          rcases List.any_eq_true.mp hx with ⟨p, hp, hpx⟩
          have hpx2 : p.1 = l := by simpa using hpx
          refine ⟨if p.1 == l then (p.1, p.2 + 1) else p,
            List.mem_map_of_mem _ hp, ?_⟩
          simp [hpx2]
    · rw [if_neg hx]
      have hxnot : x ∉ xs := by
        intro hmem
        rcases ihk x hmem with ⟨e, he, hke⟩
        exact hx (List.any_eq_true.mpr ⟨e, he, by simp [hke]⟩)
      constructor
      · intro e he
        rcases List.mem_append.mp he with he | he
        · obtain ⟨hc0, hk0⟩ := ihe e he
          have hkx : e.1 ≠ x := by
            intro hcontra
            exact hx (List.any_eq_true.mpr ⟨e, he, by simp [hcontra]⟩)
          refine ⟨?_, List.mem_append_left _ hk0⟩
          rw [List.count_append]
          have h1 : List.count e.1 [x] = 0 := by simp [hkx]
          omega
        · have he2 : e = (x, 1) := by simpa using he
          subst he2
          refine ⟨?_, by simp⟩
          show 1 = (xs ++ [x]).count x
          rw [List.count_append]
          have h0 : xs.count x = 0 := List.count_eq_zero.mpr hxnot
          have h1 : List.count x [x] = 1 := by simp
          omega
      · intro l hl
        rcases List.mem_append.mp hl with hl | hl
        · rcases ihk l hl with ⟨e0, he0, hke⟩
          exact ⟨e0, List.mem_append_left _ he0, hke⟩
        · have hlx : l = x := by simpa using hl
          subst hlx
          exact ⟨(l, 1), List.mem_append_right _ (by simp), rfl⟩

theorem byCountDesc_trans :
    ∀ a b c : String × Nat, byCountDesc a b → byCountDesc b c → byCountDesc a c := by
  intro a b c hab hbc
  simp only [byCountDesc, decide_eq_true_eq] at *
  omega

theorem byCountDesc_total :
    ∀ a b : String × Nat, byCountDesc a b || byCountDesc b a := by
  intro a b
  simp only [byCountDesc, Bool.or_eq_true, decide_eq_true_eq]
  omega

/-- Claim C4: the top-languages display is built from the non-null primary
languages only, the ranked entries carry the exact occurrence counts, the
ranking is descending by count, any two counted entries already in
descending order (in particular tied ones, which sit in first-encounter
order in `langCount`) keep their relative order (stable sort), at most the
first three are kept, and they are joined into one display string. -/
theorem topLanguages_spec (rs : List GitHubRepo) :
    (topLanguagesList rs).length ≤ 3 ∧
    (∀ lang ∈ topLanguagesList rs, ∃ r ∈ rs, r.language = some lang) ∧
    (∀ e ∈ sortedLangEntries rs,
        e.2 = (languages rs).count e.1 ∧ e.1 ∈ languages rs) ∧
    (sortedLangEntries rs).Pairwise (fun p q => q.2 ≤ p.2) ∧
    (∀ p q : String × Nat,
        List.Sublist [p, q] (langCount (languages rs)) → q.2 ≤ p.2 →
        List.Sublist [p, q] (sortedLangEntries rs)) ∧
    topLanguages rs =
      String.intercalate ", " (((sortedLangEntries rs).take 3).map (fun e => e.1)) := by
  obtain ⟨hent, hkeys⟩ := langCount_spec (languages rs)
  refine ⟨?_, ?_, ?_, ?_, ?_, rfl⟩
  · simp only [topLanguagesList, List.length_map, List.length_take]
    omega
  · intro lang hlang
    rcases List.mem_map.mp hlang with ⟨e, he, rfl⟩
    have he2 : e ∈ sortedLangEntries rs := List.mem_of_mem_take he
    have he3 : e ∈ langCount (languages rs) := by
      simpa [sortedLangEntries, List.mem_mergeSort] using he2
    have hk : e.1 ∈ languages rs := (hent e he3).2
    rcases List.mem_filterMap.mp hk with ⟨a, ha, hae⟩
    rcases List.mem_map.mp ha with ⟨r, hr, rfl⟩
    exact ⟨r, hr, by simpa using hae⟩
  · intro e he
    have he3 : e ∈ langCount (languages rs) := by
      simpa [sortedLangEntries, List.mem_mergeSort] using he
    exact hent e he3
  · have hp : ((langCount (languages rs)).mergeSort byCountDesc).Pairwise
        (fun a b => byCountDesc a b = true) :=
      List.sorted_mergeSort byCountDesc_trans byCountDesc_total
        (langCount (languages rs))
    exact hp.imp (by
      intro a b h
      simpa [byCountDesc, decide_eq_true_eq] using h)
  · intro p q hsub hle
    exact List.pair_sublist_mergeSort byCountDesc_trans byCountDesc_total
      (by simpa [byCountDesc, decide_eq_true_eq] using hle) hsub

/-- Witness for C4: on a concrete list the dominant/tied pair keeps its
order through the sort. -/
theorem topLanguages_spec_witness :
    List.Sublist [("TypeScript", 2), ("Python", 1)]
      (sortedLangEntries [demoRepoTs, demoRepoPy, demoRepoTs2]) :=
  (topLanguages_spec [demoRepoTs, demoRepoPy, demoRepoTs2]).2.2.2.2.1
    ("TypeScript", 2) ("Python", 1) (by decide) (by decide)

end GitReceipt
